import Mathlib

/-!
Shallow embedding of the subscription-analytics MCP repository
(query router `server/ai_processor.py`, aggregator `server/mcp_server.py`,
client session `client/modules/remote_client.py`, data-backend validation
`server/database.py`), together with theorems settling the frozen claims.

Strings are modelled as `List Char`; Python's regex patterns used by the
router are modelled by direct character scanners with the same matching
semantics (left-to-right scan, non-overlapping matches, greedy digit runs).
-/

set_option maxRecDepth 20000

namespace SubscriptionAnalytics

/-! ## Character and string helpers -/

/-- `\d` of Python's `re` restricted to ASCII digits, as in the queries. -/
def isDigitChar (c : Char) : Bool := 48 ≤ c.toNat && c.toNat ≤ 57

/-- `\s` / `str.strip` whitespace: space, tab, newline, CR, FF, VT. -/
def isSpaceChar (c : Char) : Bool :=
  c = ' ' || c = '\t' || c = '\n' || c = '\x0d' || c = '\x0b' || c = '\x0c'

/-- ASCII lower-casing, the effect of `str.lower()` on the ASCII queries. -/
def asciiLower (c : Char) : Char :=
  if 65 ≤ c.toNat && c.toNat ≤ 90 then Char.ofNat (c.toNat + 32) else c

/-- Numeric value of a digit run, as Python's `int()` on a captured group. -/
def digitsToNat (ds : List Char) : Nat :=
  ds.foldl (fun acc c => acc * 10 + (c.toNat - 48)) 0

/-- `needle in haystack`: Python's substring containment test. -/
def containsSub (needle : List Char) : List Char → Bool
  | [] => needle.isEmpty
  | c :: cs => needle.isPrefixOf (c :: cs) || containsSub needle cs

/-- One step of `str.split(sep)`: scan for the leftmost occurrence of `sep`,
fuelled by the input length (each step consumes at least one character). -/
def splitOnAux (sep : List Char) : Nat → List Char → List Char → List (List Char)
  | 0, acc, s => [acc.reverse ++ s]
  | _ + 1, acc, [] => [acc.reverse]
  | fuel + 1, acc, c :: cs =>
    if sep.isPrefixOf (c :: cs) then
      acc.reverse :: splitOnAux sep fuel [] ((c :: cs).drop sep.length)
    else
      splitOnAux sep fuel (c :: acc) cs

/-- Python's `str.split(sep)` for a non-empty separator. -/
def splitList (sep s : List Char) : List (List Char) :=
  splitOnAux sep s.length [] s

/-- Python's `str.strip()`. -/
def stripChars (s : List Char) : List Char :=
  ((s.dropWhile isSpaceChar).reverse.dropWhile isSpaceChar).reverse

/-! ## Period extraction: model of `MultiQueryGeminiProcessor._extract_time_period`

Each Python regex is modelled by a scanner with the same semantics.
`tryNumUnit u` matches `(\d+)\s*u` followed by an optional `s` at the head of
the input (the pattern `(\d+)\s*days?` etc.); greedy digit/space runs are
exact here because neither a digit nor a space can begin the unit literal. -/

def tryNumUnit (unit : List Char) (s : List Char) : Option (Nat × List Char) :=
  let ds := s.takeWhile isDigitChar
  if ds.isEmpty then none
  else
    let r2 := (s.dropWhile isDigitChar).dropWhile isSpaceChar
    if unit.isPrefixOf r2 then
      match r2.drop unit.length with
      | 's' :: t => some (digitsToNat ds, t)
      | t => some (digitsToNat ds, t)
    else none

/-- `re.findall` for `(\d+)\s*u s?`: left-to-right, non-overlapping, resuming
after each match; fuelled by the input length (every step consumes ≥ 1 char). -/
def findallAux (unit : List Char) : Nat → List Char → List Nat
  | 0, _ => []
  | _ + 1, [] => []
  | fuel + 1, c :: cs =>
    match tryNumUnit unit (c :: cs) with
    | some (n, rest) => n :: findallAux unit fuel rest
    | none => findallAux unit fuel cs

def findallNumUnit (unit s : List Char) : List Nat :=
  findallAux unit s.length s

/-- `re.search`: first position (left to right) where the head matcher fires. -/
def searchFirst (p : List Char → Option Nat) : List Char → Option Nat
  | [] => p []
  | c :: cs =>
    match p (c :: cs) with
    | some n => some n
    | none => searchFirst p cs

/-- Head match for `(\d+)\s*days?`, returning the captured number. -/
def tryNumDays (s : List Char) : Option Nat :=
  let ds := s.takeWhile isDigitChar
  if ds.isEmpty then none
  else if ("day".toList).isPrefixOf ((s.dropWhile isDigitChar).dropWhile isSpaceChar) then
    some (digitsToNat ds)
  else none

/-- Head match for `last\s+(\d+)\s*days?`. -/
def tryLastDays (s : List Char) : Option Nat :=
  if ("last".toList).isPrefixOf s then
    let r1 := s.drop 4
    if (r1.takeWhile isSpaceChar).isEmpty then none
    else tryNumDays (r1.dropWhile isSpaceChar)
  else none

/-- Head match for `for\s+(?:last\s+)?(\d+)\s*days?` (the optional
`last\s+` group is tried first, as the regex engine does). -/
def tryForDays (s : List Char) : Option Nat :=
  if ("for".toList).isPrefixOf s then
    let r1 := s.drop 3
    if (r1.takeWhile isSpaceChar).isEmpty then none
    else
      let r2 := r1.dropWhile isSpaceChar
      let viaLast :=
        if ("last".toList).isPrefixOf r2 then
          let r3 := r2.drop 4
          if (r3.takeWhile isSpaceChar).isEmpty then none
          else tryNumDays (r3.dropWhile isSpaceChar)
        else none
      match viaLast with
      | some n => some n
      | none => tryNumDays r2
  else none

/-- Head match for `past\s+(\d+)\s*(days?|weeks?|months?)`, already converted
to days (`week ↦ ×7`, `month ↦ ×30`) as the source does on the capture. -/
def tryPastUnit (s : List Char) : Option Nat :=
  if ("past".toList).isPrefixOf s then
    let r1 := s.drop 4
    if (r1.takeWhile isSpaceChar).isEmpty then none
    else
      let r2 := r1.dropWhile isSpaceChar
      let ds := r2.takeWhile isDigitChar
      if ds.isEmpty then none
      else
        let r3 := (r2.dropWhile isDigitChar).dropWhile isSpaceChar
        if ("day".toList).isPrefixOf r3 then some (digitsToNat ds)
        else if ("week".toList).isPrefixOf r3 then some (digitsToNat ds * 7)
        else if ("month".toList).isPrefixOf r3 then some (digitsToNat ds * 30)
        else none
  else none

/-- `MultiQueryGeminiProcessor._extract_time_period`: the fixed pattern
cascade, each rule returning immediately on match; default 30. -/
def extract_time_period (ql : List Char) : Nat :=
  let day_matches := findallNumUnit ("day".toList) ql
  if !day_matches.isEmpty then day_matches.getLastD 30
  else
    match searchFirst tryLastDays ql with
    | some n => n
    | none =>
      match searchFirst tryForDays ql with
      | some n => n
      | none =>
        let week_matches := findallNumUnit ("week".toList) ql
        if !week_matches.isEmpty then week_matches.getLastD 30 * 7
        else
          let month_matches := findallNumUnit ("month".toList) ql
          if !month_matches.isEmpty then month_matches.getLastD 30 * 30
          else
            match searchFirst tryPastUnit ql with
            | some n => n
            | none =>
              if containsSub ("recent".toList) ql || containsSub ("recently".toList) ql then 7
              else if containsSub ("this month".toList) ql || containsSub ("monthly".toList) ql then 30
              else if containsSub ("this week".toList) ql || containsSub ("weekly".toList) ql then 7
              else 30

/-! ## Query router: model of `MultiQueryGeminiProcessor` -/

/-- The four backend operations the router can emit. -/
inductive Tool where
  | get_database_status
  | get_subscriptions_in_last_days
  | get_payment_success_rate_in_last_days
  | get_subscription_summary
deriving DecidableEq, Repr

/-- One `{'tool': ..., 'parameters': ...}` entry produced by the router;
`days_param = none` models the empty parameter dict. -/
structure RoutedCall where
  tool : Tool
  days_param : Option Nat
deriving DecidableEq, Repr

def anyKeyword (ws : List String) (ql : List Char) : Bool :=
  ws.any (fun w => containsSub w.toList ql)

def has_database (ql : List Char) : Bool :=
  anyKeyword ["database", "db", "status", "health", "connection"] ql

def has_payment (ql : List Char) : Bool :=
  anyKeyword ["payment", "pay", "rate", "success", "revenue", "money"] ql

def has_subscription (ql : List Char) : Bool :=
  anyKeyword ["subscription", "subs", "sub", "performance", "customer"] ql

def has_summary (ql : List Char) : Bool :=
  anyKeyword ["summary", "overview", "metrics", "stats", "statistics", "combined"] ql

/-- `MultiQueryGeminiProcessor._parse_single_query`. -/
def parse_single_query (ql : List Char) : List RoutedCall :=
  if has_database ql then
    [⟨.get_database_status, none⟩]
  else if has_payment ql && !has_summary ql && !has_subscription ql then
    [⟨.get_payment_success_rate_in_last_days, some (extract_time_period ql)⟩]
  else if has_subscription ql && !has_summary ql && !has_payment ql then
    [⟨.get_subscriptions_in_last_days, some (extract_time_period ql)⟩]
  else
    [⟨.get_subscription_summary, some (extract_time_period ql)⟩]

/-- Ordered insertion skipping duplicates; folding it over a list is the
model of Python's `sorted(list(set(...)))`. -/
def insertAsc (n : Nat) : List Nat → List Nat
  | [] => [n]
  | m :: ms =>
    if n < m then n :: m :: ms
    else if n = m then m :: ms
    else m :: insertAsc n ms

/-- `sorted(list(set(l)))`: the ascending list of the distinct elements. -/
def sortDedup (l : List Nat) : List Nat := l.foldr insertAsc []

/-- The raw comparison periods: all `N days` occurrences, then all
`N weeks` (×7), then all `N months` (×30). -/
def raw_compare_periods (ql : List Char) : List Nat :=
  findallNumUnit ("day".toList) ql
    ++ (findallNumUnit ("week".toList) ql).map (· * 7)
    ++ (findallNumUnit ("month".toList) ql).map (· * 30)

/-- `periods = sorted(list(set(periods))) if periods else [7, 30]`. -/
def compare_periods (ql : List Char) : List Nat :=
  if (raw_compare_periods ql).isEmpty then [7, 30]
  else sortDedup (raw_compare_periods ql)

/-- The `results.extend(...)` accumulation over the split segments. -/
def extendAll (l : List (List RoutedCall)) : List RoutedCall :=
  l.foldr (· ++ ·) []

/-- The split of `_parse_multi_query` lines 107–114: split on the single
first-matching separator, in the fixed priority order. -/
def split_parts (ql : List Char) : List (List Char) :=
  if containsSub (" and ".toList) ql then splitList (" and ".toList) ql
  else if containsSub (" vs ".toList) ql then splitList (" vs ".toList) ql
  else if containsSub (" versus ".toList) ql then splitList (" versus ".toList) ql
  else [ql]

/-- The `results` list accumulated by `_parse_multi_query` before its final
fallback check: the comparison branch, or per-segment single-query parses
(note: every stripped segment is parsed, an empty segment included). -/
def multi_results (ql : List Char) : List RoutedCall :=
  if containsSub ("compare".toList) ql then
    (compare_periods ql).map (fun d => ⟨.get_subscription_summary, some d⟩)
  else
    extendAll ((split_parts ql).map (fun part => parse_single_query (stripChars part)))

/-- `MultiQueryGeminiProcessor._parse_multi_query` (on the lowered text):
`return results if results else self._parse_single_query(query_lower)`. -/
def parse_multi_query (ql : List Char) : List RoutedCall :=
  if (multi_results ql).isEmpty then parse_single_query ql else multi_results ql

/-- `has_and or has_vs or has_compare` of `parse_natural_language_query`. -/
def has_multi_indicator (ql : List Char) : Bool :=
  containsSub (" and ".toList) ql
    || (containsSub (" vs ".toList) ql || containsSub (" versus ".toList) ql)
    || containsSub ("compare".toList) ql

/-- `MultiQueryGeminiProcessor.parse_natural_language_query`: lower-case,
detect multi-intent indicators, dispatch. -/
def parse_natural_language_query (q : List Char) : List RoutedCall :=
  if has_multi_indicator (q.map asciiLower) then parse_multi_query (q.map asciiLower)
  else parse_single_query (q.map asciiLower)

/-! ## Backend payloads and the aggregator:
model of `RemoteSubscriptionAnalyticsMCPServer._handle_natural_language_query`
and `_format_result`.

A backend payload is either a dict carrying an `error` key or a success dict;
the per-field success formatting of `_format_result` is irrelevant to the
claims, so a success payload is abstracted by its rendered text. -/

inductive DbPayload where
  | withError (msg : String)
  | ok (rendered : String)
deriving DecidableEq, Repr

/-- `tool_name.replace('_', ' ').title()` for the four routed tools. -/
def tool_error_title : Tool → String
  | .get_database_status => "Get Database Status"
  | .get_subscriptions_in_last_days => "Get Subscriptions In Last Days"
  | .get_payment_success_rate_in_last_days => "Get Payment Success Rate In Last Days"
  | .get_subscription_summary => "Get Subscription Summary"

/-- `_format_result`: an `error` key renders as the error line; a success
payload renders as its (abstracted) formatted text. -/
def format_result (t : Tool) (p : DbPayload) : String :=
  match p with
  | .withError m => "❌ **" ++ tool_error_title t ++ "**: " ++ m
  | .ok rendered => rendered

/-- Executing one routed call against the backend either returns a payload or
raises an exception carrying a message (`str(e)`). -/
inductive ExecOutcome where
  | raised (msg : String)
  | returned (payload : DbPayload)
deriving DecidableEq, Repr

/-- The `for tool_call in tool_calls:` loop of
`_handle_natural_language_query`: sequential execution, formatted results
accumulated in order; a raised exception propagates immediately (the partial
`results` list is discarded and no further call is executed). -/
def run_tool_calls (ex : RoutedCall → ExecOutcome) : List RoutedCall → Except String (List String)
  | [] => .ok []
  | c :: cs =>
    match ex c with
    | .raised m => .error m
    | .returned p =>
      match run_tool_calls ex cs with
      | .error m => .error m
      | .ok rs => .ok (format_result c.tool p :: rs)

def combinedDelim : String := "\n\n---\n\n"

def combinedHeader (q : String) : String :=
  "🔍 **Combined Analysis for:** '" ++ q ++ "'\n\n"

/-- The merge step: one result is returned verbatim; several are joined under
the combined-analysis header with the visible delimiter. -/
def merge_results (q : String) (results : List String) : String :=
  match results with
  | [r] => r
  | rs => combinedHeader q ++ String.intercalate combinedDelim rs

/-- The body of `_handle_natural_language_query` applied to an already-routed
list of calls: empty routing yields the cannot-understand message, a raised
exception yields the single query-processing-failed message (the surrounding
`except Exception` handler), otherwise the merge of the per-call renderings. -/
def aggregate_calls (ex : RoutedCall → ExecOutcome) (q : String)
    (tool_calls : List RoutedCall) : String :=
  if tool_calls.isEmpty then
    "❌ I couldn't understand your query. Please try rephrasing it."
  else
    match run_tool_calls ex tool_calls with
    | .error m => "❌ Query processing failed: " ++ m
    | .ok results => merge_results q results

/-- `_handle_natural_language_query`: route the query, then aggregate. -/
def handle_natural_language_query (ex : RoutedCall → ExecOutcome) (q : String) : String :=
  aggregate_calls ex q (parse_natural_language_query q.toList)

/-! ## Client connect: model of `RemoteMCPClient.connect`.

One connection attempt (transport connect + auth handshake) is summarised by
its outcome; every non-`ok` outcome is caught by the attempt loop's handlers
(`asyncio.TimeoutError`, `ConnectionRefusedError`, and the blanket
`except Exception` — which also catches the `ConnectionError` raised when the
auth acknowledgement carries an `error` field). -/

inductive AttemptResult where
  | ok
  | timeout
  | refused
  | auth_error (msg : String)
  | other_error (msg : String)
deriving DecidableEq, Repr

def AttemptResult.isOk : AttemptResult → Bool
  | .ok => true
  | _ => false

/-- Overall result of `connect`: the number of attempts performed and the
sleep delays taken between attempts are recorded. -/
inductive ConnectOutcome where
  | already_connected
  | value_error (msg : String)
  | connected (attempts_made : Nat) (delays : List Nat)
  | connection_error (attempts_made : Nat) (delays : List Nat)
deriving DecidableEq, Repr

/-- The `for attempt in range(self.retry_attempts)` loop: on failure, sleep
`reconnect_delay * 2 ** attempt` unless this was the last attempt. -/
def connectGo (att : Nat → AttemptResult) (base : Nat) :
    Nat → Nat → List Nat → ConnectOutcome
  | 0, attempt, delays => .connection_error attempt delays
  | r + 1, attempt, delays =>
    if (att attempt).isOk then .connected (attempt + 1) delays
    else
      connectGo att base r (attempt + 1)
        (if r = 0 then delays else delays ++ [base * 2 ^ attempt])

/-- `RemoteMCPClient.connect`. -/
def connect (already_connected : Bool) (api_key : Option String)
    (att : Nat → AttemptResult) (retry_attempts base : Nat) : ConnectOutcome :=
  if already_connected then .already_connected
  else if api_key = none then
    .value_error "API Key is required to connect to remote server"
  else connectGo att base retry_attempts 0 []

/-! ## Client send-and-await: model of `RemoteMCPClient._send_message`.

The socket's incoming frames are modelled as the list of responses in arrival
order; `websocket.recv()` yields the next frame in that order. -/

structure WireRequest where
  id : String
  method : String
deriving DecidableEq, Repr

structure WireResponse where
  id : String
  body : String
deriving DecidableEq, Repr

/-- `_send_message`: send the request, then return whatever frame arrives
next (`recv`), with no inspection of its id; `none` models the timeout /
closed-transport failure when no frame arrives. -/
def send_message (inbox : List WireResponse) (_msg : WireRequest) :
    Option (WireResponse × List WireResponse) :=
  match inbox with
  | [] => none
  | r :: rest => some (r, rest)

/-- Two logically concurrent `_send_message` calls multiplexed on one
connection, in the interleaving where both requests are sent before either
response is read: the first pending `recv` consumes the first frame to
arrive, the second the next. -/
def two_in_flight (reqA reqB : WireRequest) (inbox : List WireResponse) :
    Option (WireResponse × WireResponse) :=
  match send_message inbox reqA with
  | none => none
  | some (ra, rest) =>
    match send_message rest reqB with
    | none => none
    | some (rb, _) => some (ra, rb)

/-! ## Data backend: model of `DatabaseManager` (`server/database.py`).

`days` is an `Int` (a Python `int` that passed the `isinstance` check); the
table-existence check and the threaded sync query are abstracted by
parameters, since only their result-or-error contract matters. The functions
are total: a validation failure is a returned payload, never an exception. -/

def days_validation_error : DbPayload :=
  .withError "Days must be an integer between 1 and 365"

/-- `DatabaseManager.get_subscriptions_in_last_days`. -/
def get_subscriptions_in_last_days (table_exists : Bool) (sync_result : DbPayload)
    (days : Int) : DbPayload :=
  if ¬(1 ≤ days ∧ days ≤ 365) then days_validation_error
  else if !table_exists then .withError "Table 'subscription_contract_v2' not found."
  else sync_result

/-- `DatabaseManager.get_payment_success_rate_in_last_days`. -/
def get_payment_success_rate_in_last_days (table_exists : Bool) (sync_result : DbPayload)
    (days : Int) : DbPayload :=
  if ¬(1 ≤ days ∧ days ≤ 365) then days_validation_error
  else if !table_exists then .withError "Table 'subscription_payment_details' not found."
  else sync_result

/-- `"error" in data`. -/
def DbPayload.hasErrorKey : DbPayload → Bool
  | .withError _ => true
  | .ok _ => false

/-- `data.get("error")`. -/
def DbPayload.errorField : DbPayload → Option String
  | .withError m => some m
  | .ok _ => none

/-- Result of `get_subscription_summary`: either the whole-operation error
dict (carrying only the two sub-error fields) or the composite success. -/
inductive SummaryResult where
  | full_error (msg : String) (subscription_error payment_error : Option String)
  | ok (period_days : Int) (subscriptions payments : DbPayload)
deriving DecidableEq, Repr

/-- `DatabaseManager.get_subscription_summary`: gather the two sub-results,
escalate any sub-error to a whole-operation error. -/
def get_subscription_summary (sub_table pay_table : Bool)
    (sub_sync pay_sync : DbPayload) (days : Int) : SummaryResult :=
  let s := get_subscriptions_in_last_days sub_table sub_sync days
  let p := get_payment_success_rate_in_last_days pay_table pay_sync days
  if s.hasErrorKey || p.hasErrorKey then
    .full_error "Failed to fetch full summary" s.errorField p.errorField
  else .ok days s p

/-! ## Helper lemmas -/

theorem mem_insertAsc {a n : Nat} : ∀ {l : List Nat}, a ∈ insertAsc n l ↔ a = n ∨ a ∈ l
  | [] => by simp [insertAsc]
  | m :: ms => by
    simp only [insertAsc]
    split_ifs with h1 h2
    · simp
    · subst h2; simp [List.mem_cons]
    · simp only [List.mem_cons, mem_insertAsc (l := ms)]; tauto

theorem head?_insertAsc (n : Nat) : ∀ l : List Nat,
    (insertAsc n l).head? = some n ∨ (insertAsc n l).head? = l.head?
  | [] => Or.inl rfl
  | m :: ms => by
    simp only [insertAsc]
    split_ifs with h1 h2
    · exact Or.inl rfl
    · exact Or.inr rfl
    · exact Or.inr rfl

theorem chain'_lt_insertAsc {n : Nat} :
    ∀ {l : List Nat}, List.Chain' (· < ·) l → List.Chain' (· < ·) (insertAsc n l)
  | [], _ => by simp [insertAsc]
  | m :: ms, h => by
    simp only [insertAsc]
    split_ifs with h1 h2
    · exact List.chain'_cons.mpr ⟨h1, h⟩
    · exact h
    · have hm : m < n := by omega
      have h' := List.chain'_cons'.mp h
      refine List.chain'_cons'.mpr ⟨?_, chain'_lt_insertAsc h'.2⟩
      intro y hy
      rcases head?_insertAsc n ms with hh | hh
      · rw [hh] at hy; simp at hy; omega
      · rw [hh] at hy; exact h'.1 y hy

theorem chain'_lt_sortDedup : ∀ l : List Nat, List.Chain' (· < ·) (sortDedup l)
  | [] => by simp [sortDedup]
  | x :: xs => chain'_lt_insertAsc (chain'_lt_sortDedup xs)

theorem mem_sortDedup {a : Nat} : ∀ {l : List Nat}, a ∈ sortDedup l ↔ a ∈ l
  | [] => by simp [sortDedup]
  | x :: xs => by
    show a ∈ insertAsc x (sortDedup xs) ↔ _
    rw [mem_insertAsc, mem_sortDedup (l := xs)]
    simp [List.mem_cons]

theorem insertAsc_ne_nil (n : Nat) : ∀ l : List Nat, insertAsc n l ≠ []
  | [] => by simp [insertAsc]
  | m :: ms => by simp only [insertAsc]; split_ifs <;> simp

theorem sortDedup_ne_nil {l : List Nat} (h : l ≠ []) : sortDedup l ≠ [] := by
  match l, h with
  | x :: xs, _ => exact insertAsc_ne_nil x (sortDedup xs)

theorem compare_periods_ne_nil (ql : List Char) : compare_periods ql ≠ [] := by
  unfold compare_periods
  split
  · simp
  · next h => exact sortDedup_ne_nil (fun hc => h (by simp [hc]))

theorem parse_single_query_length (ql : List Char) : (parse_single_query ql).length = 1 := by
  unfold parse_single_query
  split_ifs <;> rfl

theorem parse_single_query_ne_nil (ql : List Char) : parse_single_query ql ≠ [] := by
  intro h
  have := parse_single_query_length ql
  rw [h] at this
  simp at this

theorem parse_multi_query_ne_nil (ql : List Char) : parse_multi_query ql ≠ [] := by
  unfold parse_multi_query
  split
  · exact parse_single_query_ne_nil ql
  · next h => exact fun hc => h (by simp [hc])

theorem parse_natural_language_query_ne_nil (q : List Char) :
    parse_natural_language_query q ≠ [] := by
  unfold parse_natural_language_query
  split
  · exact parse_multi_query_ne_nil _
  · exact parse_single_query_ne_nil _

theorem parse_nlq_eq_multi {q : List Char}
    (h : has_multi_indicator (q.map asciiLower) = true) :
    parse_natural_language_query q = parse_multi_query (q.map asciiLower) := by
  unfold parse_natural_language_query
  rw [h]
  simp

theorem splitOnAux_ne_nil (sep : List Char) :
    ∀ (fuel : Nat) (acc s : List Char), splitOnAux sep fuel acc s ≠ []
  | 0, acc, s => by simp [splitOnAux]
  | fuel + 1, acc, [] => by simp [splitOnAux]
  | fuel + 1, acc, c :: cs => by
    rw [splitOnAux]
    split
    · simp
    · exact splitOnAux_ne_nil sep fuel (c :: acc) cs

theorem splitList_ne_nil (sep s : List Char) : splitList sep s ≠ [] :=
  splitOnAux_ne_nil sep s.length [] s

theorem split_parts_ne_nil (ql : List Char) : split_parts ql ≠ [] := by
  unfold split_parts
  split_ifs <;> first | exact splitList_ne_nil _ _ | simp

theorem extendAll_map_length (f : List Char → List RoutedCall) :
    ∀ l : List (List Char), (∀ x ∈ l, (f x).length = 1) →
      (extendAll (l.map f)).length = l.length
  | [], _ => rfl
  | x :: xs, h => by
    show (f x ++ extendAll (xs.map f)).length = _
    rw [List.length_append, h x (by simp),
      extendAll_map_length f xs (fun y hy => h y (by simp [hy]))]
    simp [Nat.add_comm]

theorem run_tool_calls_returned (ex : RoutedCall → ExecOutcome)
    (p : RoutedCall → DbPayload) :
    ∀ calls : List RoutedCall, (∀ c ∈ calls, ex c = .returned (p c)) →
      run_tool_calls ex calls = .ok (calls.map fun c => format_result c.tool (p c))
  | [], _ => rfl
  | c :: cs, h => by
    rw [run_tool_calls, h c (by simp),
      run_tool_calls_returned ex p cs (fun d hd => h d (by simp [hd]))]
    rfl

theorem range_map_delay_succ (base attempt k : Nat) :
    (List.range (k + 1)).map (fun i => base * 2 ^ (attempt + i)) =
      base * 2 ^ attempt
        :: (List.range k).map (fun i => base * 2 ^ (attempt + 1 + i)) := by
  rw [List.range_succ_eq_map, List.map_cons, List.map_map]
  congr 1
  apply List.map_congr_left
  intro i _
  have h1 : attempt + (i + 1) = attempt + 1 + i := by omega
  simp only [Function.comp, Nat.succ_eq_add_one, h1]

theorem connectGo_succeeds (att : Nat → AttemptResult) (base : Nat) :
    ∀ (k r attempt : Nat) (delays : List Nat), k < r →
      (∀ i, i < k → (att (attempt + i)).isOk = false) →
      (att (attempt + k)).isOk = true →
      connectGo att base r attempt delays
        = .connected (attempt + k + 1)
            (delays ++ (List.range k).map (fun i => base * 2 ^ (attempt + i)))
  | 0, r, attempt, delays, hkr, _, hok => by
    match r, hkr with
    | r' + 1, _ =>
      rw [connectGo]
      simp only [Nat.add_zero] at hok
      simp [hok]
  | k + 1, r, attempt, delays, hkr, hfail, hok => by
    match r, hkr with
    | r' + 1, hkr =>
      rw [connectGo]
      have h0 : (att attempt).isOk = false := by
        have := hfail 0 (by omega); simpa using this
      rw [h0]
      simp only [Bool.false_eq_true, if_false]
      have hr' : ¬ r' = 0 := by omega
      rw [if_neg hr']
      have hshift : ∀ i, i < k → (att (attempt + 1 + i)).isOk = false := by
        intro i hi
        have := hfail (i + 1) (by omega)
        rwa [show attempt + (i + 1) = attempt + 1 + i by omega] at this
      have hok' : (att (attempt + 1 + k)).isOk = true := by
        rwa [show attempt + 1 + k = attempt + (k + 1) by omega]
      rw [connectGo_succeeds att base k r' (attempt + 1) _ (by omega) hshift hok']
      rw [range_map_delay_succ]
      rw [show attempt + 1 + k + 1 = attempt + (k + 1) + 1 by omega]
      congr 1
      simp

theorem connectGo_exhausts (att : Nat → AttemptResult) (base : Nat) :
    ∀ (r attempt : Nat) (delays : List Nat),
      (∀ i, i < r → (att (attempt + i)).isOk = false) →
      connectGo att base r attempt delays
        = .connection_error (attempt + r)
            (delays ++ (List.range (r - 1)).map (fun i => base * 2 ^ (attempt + i)))
  | 0, attempt, delays, _ => by
    rw [connectGo]
    simp
  | r + 1, attempt, delays, hfail => by
    rw [connectGo]
    have h0 : (att attempt).isOk = false := by
      have := hfail 0 (by omega); simpa using this
    rw [h0]
    simp only [Bool.false_eq_true, if_false]
    match r with
    | 0 =>
      rw [connectGo]
      simp
    | r' + 1 =>
      rw [if_neg (by omega : ¬ r' + 1 = 0)]
      have hshift : ∀ i, i < r' + 1 → (att (attempt + 1 + i)).isOk = false := by
        intro i hi
        have := hfail (i + 1) (by omega)
        rwa [show attempt + (i + 1) = attempt + 1 + i by omega] at this
      rw [connectGo_exhausts att base (r' + 1) (attempt + 1) _ hshift]
      rw [show (r' + 1) - 1 = r' by omega, show (r' + 1 + 1) - 1 = r' + 1 by omega]
      rw [range_map_delay_succ]
      rw [show attempt + 1 + (r' + 1) = attempt + (r' + 1 + 1) by omega]
      congr 1
      simp

theorem chain'_le_map_range :
    ∀ (f : Nat → Nat), (∀ i, f i ≤ f (i + 1)) →
      ∀ m : Nat, List.Chain' (· ≤ ·) ((List.range m).map f) := by
  intro f hf m
  induction m generalizing f with
  | zero => simp
  | succ m ih =>
    rw [List.range_succ_eq_map, List.map_cons, List.map_map]
    refine List.chain'_cons'.mpr ⟨?_, ?_⟩
    · intro y hy
      match m, hy with
      | m' + 1, hy =>
        rw [List.range_succ_eq_map] at hy
        simp only [List.map_cons, List.head?_cons, Option.mem_def,
          Option.some.injEq, Function.comp] at hy
        subst hy
        exact hf 0
    · have := ih (fun i => f (i + 1)) (fun i => hf (i + 1))
      simpa [Function.comp] using this

/-! ## Claims -/

/-- C9: for every integer `days`, the two per-period backend operations fail
validation with the descriptive structured error payload exactly when `days`
is outside `1..365`; within bounds, the validation gate is passed and the
operation proceeds to the table check / query result. The model functions are
total, so the validation failure is a returned payload, never an exception
escaping the handler. -/
theorem per_period_days_validation (te1 te2 : Bool) (sr1 sr2 : DbPayload) (days : Int) :
    ((days < 1 ∨ 365 < days) →
        get_subscriptions_in_last_days te1 sr1 days = days_validation_error
        ∧ get_payment_success_rate_in_last_days te2 sr2 days = days_validation_error)
  ∧ (1 ≤ days → days ≤ 365 →
        get_subscriptions_in_last_days te1 sr1 days
          = (if te1 then sr1 else .withError "Table 'subscription_contract_v2' not found.")
        ∧ get_payment_success_rate_in_last_days te2 sr2 days
          = (if te2 then sr2 else .withError "Table 'subscription_payment_details' not found.")) := by
  constructor
  · intro h
    constructor
    · unfold get_subscriptions_in_last_days
      rw [if_pos (by omega)]
    · unfold get_payment_success_rate_in_last_days
      rw [if_pos (by omega)]
  · intro h1 h2
    constructor
    · unfold get_subscriptions_in_last_days
      rw [if_neg (by omega)]
      cases te1 <;> rfl
    · unfold get_payment_success_rate_in_last_days
      rw [if_neg (by omega)]
      cases te2 <;> rfl

/-- C9 witness: the boundary values `0`, `366` fail validation; `1` and `365`
pass it and return the backend result. -/
theorem per_period_days_validation_witness :
    get_subscriptions_in_last_days true (.ok "data") 0 = days_validation_error
  ∧ get_payment_success_rate_in_last_days true (.ok "data") 366 = days_validation_error
  ∧ get_subscriptions_in_last_days true (.ok "data") 1 = .ok "data"
  ∧ get_payment_success_rate_in_last_days true (.ok "data") 365 = .ok "data" := by
  refine ⟨((per_period_days_validation true true (.ok "data") (.ok "data") 0).1
      (by omega)).1,
    ((per_period_days_validation true true (.ok "data") (.ok "data") 366).1
      (by omega)).2, ?_, ?_⟩
  · exact (((per_period_days_validation true true (.ok "data") (.ok "data") 1).2
      (by omega) (by omega)).1).trans (by decide)
  · exact (((per_period_days_validation true true (.ok "data") (.ok "data") 365).2
      (by omega) (by omega)).2).trans (by decide)

/-- C10: `get_subscription_summary` is all-or-nothing: if either concurrently
gathered sub-result carries an `error` key, the whole operation returns the
single `Failed to fetch full summary` payload carrying exactly the two
sub-error fields (the successful sub-result is discarded — the `full_error`
constructor has no slot for it); only when both succeed does it return the
`{period_days, subscriptions, payments}` composite. -/
theorem summary_all_or_nothing (te1 te2 : Bool) (sr1 sr2 : DbPayload) (days : Int) :
    (((get_subscriptions_in_last_days te1 sr1 days).hasErrorKey = true
        ∨ (get_payment_success_rate_in_last_days te2 sr2 days).hasErrorKey = true) →
        get_subscription_summary te1 te2 sr1 sr2 days
          = .full_error "Failed to fetch full summary"
              (get_subscriptions_in_last_days te1 sr1 days).errorField
              (get_payment_success_rate_in_last_days te2 sr2 days).errorField)
  ∧ ((get_subscriptions_in_last_days te1 sr1 days).hasErrorKey = false →
        (get_payment_success_rate_in_last_days te2 sr2 days).hasErrorKey = false →
        get_subscription_summary te1 te2 sr1 sr2 days
          = .ok days (get_subscriptions_in_last_days te1 sr1 days)
              (get_payment_success_rate_in_last_days te2 sr2 days)) := by
  constructor
  · intro h
    unfold get_subscription_summary
    rcases h with h | h <;> simp [h]
  · intro h1 h2
    unfold get_subscription_summary
    simp [h1, h2]

/-- C10 witness: a missing subscriptions table with a successful payments
sub-result escalates to the whole-operation error payload (the successful
payments data is discarded, its error field is `none`); with both sub-results
successful the composite is returned. -/
theorem summary_all_or_nothing_witness :
    get_subscription_summary false true (.ok "SUBS") (.ok "PAYS") 30
      = .full_error "Failed to fetch full summary"
          (some "Table 'subscription_contract_v2' not found.") none
  ∧ get_subscription_summary true true (.ok "SUBS") (.ok "PAYS") 30
      = .ok 30 (.ok "SUBS") (.ok "PAYS") := by
  constructor
  · exact ((summary_all_or_nothing false true (.ok "SUBS") (.ok "PAYS") 30).1
      (Or.inl (by decide))).trans (by decide)
  · exact ((summary_all_or_nothing true true (.ok "SUBS") (.ok "PAYS") 30).2
      (by decide) (by decide)).trans (by decide)

/-- C1 counterexample: a transport whose first attempt establishes the
connection but whose auth acknowledgement carries an error field, and whose
second attempt succeeds. The claim says the connect operation fails with
`AuthenticationError` and performs no retry; the code instead catches the
raised error in the attempt loop, sleeps `base * 2 ^ 0 = 2`, retries, and
succeeds on attempt 2. -/
theorem auth_error_no_retry_counterexample :
    connect false (some "key")
        (fun i => if i = 0 then .auth_error "Authentication failed: invalid key" else .ok)
        3 2
      = .connected 2 [2] := by
  rfl

/-- C1 (amended): an auth acknowledgement carrying an error field raises
`ConnectionError("Authentication failed: ...")`, which the attempt loop's
blanket handler catches like any other failure; the attempt is retried with
backoff, and only after all `retry_attempts` attempts fail does `connect`
fail — with `ConnectionError`, there being no `AuthenticationError` at all.
If a later attempt succeeds, `connect` succeeds. -/
theorem auth_error_is_retried :
    (∀ (att : Nat → AttemptResult) (msgs : Nat → String) (n base : Nat) (key : String),
        (∀ i, i < n → att i = .auth_error (msgs i)) →
        connect false (some key) att n base
          = .connection_error n ((List.range (n - 1)).map fun i => base * 2 ^ i))
  ∧ (∀ (att : Nat → AttemptResult) (m : String) (n base : Nat) (key : String),
        att 0 = .auth_error m → (att 1).isOk = true → 2 ≤ n →
        connect false (some key) att n base = .connected 2 [base]) := by
  constructor
  · intro att msgs n base key h
    unfold connect
    rw [if_neg (by simp), if_neg (by simp)]
    have hfail : ∀ i, i < n → (att (0 + i)).isOk = false := by
      intro i hi
      rw [Nat.zero_add, h i hi]
      rfl
    rw [connectGo_exhausts att base n 0 [] hfail]
    simp
  · intro att m n base key h0 h1 hn
    unfold connect
    rw [if_neg (by simp), if_neg (by simp)]
    have hfail : ∀ i, i < 1 → (att (0 + i)).isOk = false := by
      intro i hi
      have : i = 0 := by omega
      subst this
      rw [Nat.zero_add, h0]
      rfl
    rw [connectGo_succeeds att base 1 n 0 [] (by omega) hfail (by simpa using h1)]
    simp [List.range_succ]

/-- C1 amended witness: every attempt gets an auth-error acknowledgement, so
connect exhausts its three attempts (sleeping 2 then 4 seconds) and fails
with the connection error; and the retried-then-succeeds case. -/
theorem auth_error_is_retried_witness :
    connect false (some "key") (fun _ => .auth_error "bad key") 3 2
      = .connection_error 3 [2, 4]
  ∧ connect false (some "key")
      (fun i => if i = 0 then .auth_error "bad key" else .ok) 2 5
      = .connected 2 [5] := by
  constructor
  · exact (auth_error_is_retried.1 (fun _ => .auth_error "bad key") (fun _ => "bad key")
      3 2 "key" (fun i _ => rfl)).trans (by decide)
  · exact auth_error_is_retried.2 (fun i => if i = 0 then .auth_error "bad key" else .ok)
      "bad key" 2 5 "key" rfl rfl (by omega)

/-- C8: against a transport whose first `n − 1` attempts fail and whose
`n`-th succeeds, `connect` with `retry_attempts = n` succeeds after exactly
`n` attempts, having slept `base * 2 ^ attempt` before each retry
(`attempt` 0-based), a non-decreasing delay sequence; if all `n` attempts
fail, `connect` fails with the connection error. -/
theorem connect_retry_backoff (att : Nat → AttemptResult) (n base : Nat) (key : String) :
    (1 ≤ n → (∀ i, i < n - 1 → (att i).isOk = false) → (att (n - 1)).isOk = true →
        connect false (some key) att n base
          = .connected n ((List.range (n - 1)).map fun i => base * 2 ^ i)
        ∧ List.Chain' (· ≤ ·) ((List.range (n - 1)).map fun i => base * 2 ^ i))
  ∧ ((∀ i, i < n → (att i).isOk = false) →
        connect false (some key) att n base
          = .connection_error n ((List.range (n - 1)).map fun i => base * 2 ^ i)) := by
  constructor
  · intro hn hfail hok
    constructor
    · unfold connect
      rw [if_neg (by simp), if_neg (by simp)]
      have hfail' : ∀ i, i < n - 1 → (att (0 + i)).isOk = false := by
        intro i hi
        rw [Nat.zero_add]
        exact hfail i hi
      rw [connectGo_succeeds att base (n - 1) n 0 [] (by omega) hfail'
        (by rw [Nat.zero_add]; exact hok)]
      rw [show 0 + (n - 1) + 1 = n by omega]
      simp
    · exact chain'_le_map_range (fun i => base * 2 ^ i)
        (fun i => Nat.mul_le_mul_left base
          (Nat.pow_le_pow_right (by omega) (Nat.le_succ i))) (n - 1)
  · intro hfail
    unfold connect
    rw [if_neg (by simp), if_neg (by simp)]
    have hfail' : ∀ i, i < n → (att (0 + i)).isOk = false := by
      intro i hi
      rw [Nat.zero_add]
      exact hfail i hi
    rw [connectGo_exhausts att base n 0 [] hfail']
    simp

/-- C8 witness: two refused attempts then success with `retry_attempts = 3`
connects after delays `[2, 4]` (non-decreasing); three timeouts with
`retry_attempts = 3` exhaust into the connection error. -/
theorem connect_retry_backoff_witness :
    connect false (some "key") (fun i => if i < 2 then .refused else .ok) 3 2
      = .connected 3 [2, 4]
  ∧ List.Chain' (· ≤ ·) ([2, 4] : List Nat)
  ∧ connect false (some "key") (fun _ => .timeout) 3 2
      = .connection_error 3 [2, 4] := by
  have h1 := (connect_retry_backoff (fun i => if i < 2 then .refused else .ok) 3 2 "key").1
    (by omega) (fun i hi => by interval_cases i <;> rfl) rfl
  refine ⟨h1.1.trans (by decide), ?_, ?_⟩
  · have h2 := h1.2
    rwa [show ((List.range 2).map fun i => 2 * 2 ^ i) = [2, 4] by decide] at h2
  · exact ((connect_retry_backoff (fun _ => .timeout) 3 2 "key").2
      (fun i _ => rfl)).trans (by decide)

/-- C2 counterexample: two calls in flight concurrently on one session, with
the requests carrying ids `"1"` and `"2"` and the responses arriving out of
send order. The first caller's `recv` yields the first arriving frame — the
response with id `"2"`, not its own id `"1"` — so the Response returned by
the call does not have an id equal to its Request's id. -/
theorem call_id_matching_counterexample :
    two_in_flight ⟨"1", "tools/call"⟩ ⟨"2", "tools/call"⟩
        [⟨"2", "result B"⟩, ⟨"1", "result A"⟩]
      = some (⟨"2", "result B"⟩, ⟨"1", "result A"⟩)
  ∧ (WireResponse.mk "2" "result B").id ≠ (WireRequest.mk "1" "tools/call").id := by
  exact ⟨rfl, by decide⟩

/-- C2 (amended): `_send_message` returns whatever frame arrives next on the
socket without inspecting its id — responses are matched to calls by arrival
order, not by id. The returned response carries the request's id only when
the responses happen to arrive in send order, as in the sequential
(single-in-flight) use. -/
theorem call_returns_next_arrival :
    (∀ (inbox : List WireResponse) (msg : WireRequest),
        send_message inbox msg = inbox.head?.map (fun r => (r, inbox.tail)))
  ∧ (∀ (reqA reqB : WireRequest) (r1 r2 : WireResponse) (rest : List WireResponse),
        r1.id = reqA.id → r2.id = reqB.id →
        two_in_flight reqA reqB (r1 :: r2 :: rest) = some (r1, r2)) := by
  constructor
  · intro inbox msg
    cases inbox <;> rfl
  · intro reqA reqB r1 r2 rest _ _
    rfl

/-- C2 amended witness: with in-order arrival both concurrent calls get the
response bearing their own id. -/
theorem call_returns_next_arrival_witness :
    send_message [⟨"1", "result A"⟩] ⟨"1", "tools/call"⟩ = some (⟨"1", "result A"⟩, [])
  ∧ two_in_flight ⟨"1", "tools/call"⟩ ⟨"2", "tools/call"⟩
      [⟨"1", "result A"⟩, ⟨"2", "result B"⟩]
      = some (⟨"1", "result A"⟩, ⟨"2", "result B"⟩) := by
  constructor
  · exact (call_returns_next_arrival.1 [⟨"1", "result A"⟩] ⟨"1", "tools/call"⟩).trans rfl
  · exact call_returns_next_arrival.2 ⟨"1", "tools/call"⟩ ⟨"2", "tools/call"⟩
      ⟨"1", "result A"⟩ ⟨"2", "result B"⟩ [] rfl rfl

/-- C3 counterexample: two RoutedCalls where the first backend call raises
and the second would succeed. The claim says the result is a composite
containing both the success rendering and an error rendering; the code
instead aborts the loop and returns the single query-processing-failed
message, which does not contain the sibling's success rendering at all. -/
theorem per_call_exception_containment_counterexample :
    aggregate_calls
        (fun c => if c.tool = Tool.get_subscriptions_in_last_days then .raised "boom"
                  else .returned (.ok "PAYMENT OK"))
        "two part query"
        [⟨.get_subscriptions_in_last_days, some 7⟩,
         ⟨.get_payment_success_rate_in_last_days, some 15⟩]
      = "❌ Query processing failed: boom"
  ∧ containsSub ("PAYMENT OK".toList) (("❌ Query processing failed: boom").toList)
      = false := by
  constructor
  · rfl
  · decide

/-- C3 (amended): a raised exception while executing one call aborts the
sequential loop — the remaining calls are not executed (the result is the
same for every tail `cs`) and the whole aggregation collapses to the single
`❌ Query processing failed:` message instead of a composite; it does not
raise to the transport caller. Only error payloads returned (not raised) by
a backend call are contained to that call's slot in the composite. -/
theorem exception_aborts_aggregation :
    (∀ (ex : RoutedCall → ExecOutcome) (q : String) (c : RoutedCall)
        (cs : List RoutedCall) (m : String),
        ex c = .raised m →
        aggregate_calls ex q (c :: cs) = "❌ Query processing failed: " ++ m)
  ∧ (∀ (ex : RoutedCall → ExecOutcome) (p : RoutedCall → DbPayload) (q : String)
        (calls : List RoutedCall), calls ≠ [] →
        (∀ c ∈ calls, ex c = .returned (p c)) →
        aggregate_calls ex q calls
          = merge_results q (calls.map fun c => format_result c.tool (p c))) := by
  constructor
  · intro ex q c cs m h
    unfold aggregate_calls
    rw [if_neg (by simp)]
    rw [run_tool_calls, h]
  · intro ex p q calls hne hret
    obtain ⟨a, as, rfl⟩ := List.exists_cons_of_ne_nil hne
    unfold aggregate_calls
    rw [if_neg (by simp)]
    rw [run_tool_calls_returned ex p (a :: as) hret]

/-- C3 amended witness: the abort is independent of the sibling call's
outcome, and pure error payloads are contained per slot. -/
theorem exception_aborts_aggregation_witness :
    aggregate_calls (fun _ => .raised "boom") "q"
        [⟨.get_subscriptions_in_last_days, some 7⟩,
         ⟨.get_payment_success_rate_in_last_days, some 15⟩]
      = "❌ Query processing failed: boom"
  ∧ aggregate_calls (fun _ => .returned (.withError "db down")) "q"
        [⟨.get_subscriptions_in_last_days, some 7⟩]
      = "❌ **Get Subscriptions In Last Days**: db down" := by
  constructor
  · exact exception_aborts_aggregation.1 (fun _ => .raised "boom") "q"
      ⟨.get_subscriptions_in_last_days, some 7⟩
      [⟨.get_payment_success_rate_in_last_days, some 15⟩] "boom" rfl
  · exact (exception_aborts_aggregation.2 (fun _ => .returned (.withError "db down"))
      (fun _ => .withError "db down") "q" [⟨.get_subscriptions_in_last_days, some 7⟩]
      (by simp) (fun c _ => rfl)).trans (by decide)

/-- C4: when every routed call's backend execution returns a payload (the
backend's result-or-error contract, §6 of the spec), a single RoutedCall's
outcome is returned verbatim, and two or more yield the composite: the
combined-analysis header carrying the original query text followed by every
outcome's rendering — success and error renderings alike — in RoutedCall
order, separated by the visible delimiter. -/
theorem nlq_merge_semantics (ex : RoutedCall → ExecOutcome) (p : RoutedCall → DbPayload)
    (q : String)
    (hret : ∀ c ∈ parse_natural_language_query q.toList, ex c = .returned (p c)) :
    (∀ c, parse_natural_language_query q.toList = [c] →
        handle_natural_language_query ex q = format_result c.tool (p c))
  ∧ (2 ≤ (parse_natural_language_query q.toList).length →
        handle_natural_language_query ex q
          = combinedHeader q ++ String.intercalate combinedDelim
              ((parse_natural_language_query q.toList).map
                (fun c => format_result c.tool (p c)))) := by
  constructor
  · intro c hc
    unfold handle_natural_language_query aggregate_calls
    rw [hc] at hret ⊢
    rw [if_neg (by simp)]
    rw [run_tool_calls_returned ex p [c] hret]
    rfl
  · intro hlen
    rcases hp : parse_natural_language_query q.toList with _ | ⟨c1, rest⟩
    · exact absurd hp (parse_natural_language_query_ne_nil _)
    rcases rest with _ | ⟨c2, cs⟩
    · rw [hp] at hlen
      simp at hlen
    unfold handle_natural_language_query aggregate_calls
    rw [hp] at hret ⊢
    rw [if_neg (by simp)]
    rw [run_tool_calls_returned ex p _ hret]
    rfl

/-- C4 witness: the routed two-call query merges into the header-plus-both-
renderings composite (one success, one error, in order); a one-call query
returns its outcome verbatim. -/
theorem nlq_merge_semantics_witness :
    handle_natural_language_query
        (fun c => .returned (if c.tool = Tool.get_subscriptions_in_last_days
            then DbPayload.ok "SUBS DATA" else .withError "db down"))
        "subscription performance for 7 days and payment rate for 15 days"
      = combinedHeader "subscription performance for 7 days and payment rate for 15 days"
          ++ String.intercalate combinedDelim
              ["SUBS DATA", "❌ **Get Payment Success Rate In Last Days**: db down"]
  ∧ handle_natural_language_query (fun _ => .returned (.ok "DB OK")) "database status"
      = "DB OK" := by
  constructor
  · have h := (nlq_merge_semantics
      (fun c => .returned (if c.tool = Tool.get_subscriptions_in_last_days
          then DbPayload.ok "SUBS DATA" else .withError "db down"))
      (fun c => if c.tool = Tool.get_subscriptions_in_last_days
          then DbPayload.ok "SUBS DATA" else .withError "db down")
      "subscription performance for 7 days and payment rate for 15 days"
      (by decide)).2 (by decide)
    exact h.trans (by decide)
  · have h := (nlq_merge_semantics (fun _ => .returned (.ok "DB OK"))
      (fun _ => .ok "DB OK") "database status" (by decide)).1
      ⟨.get_database_status, none⟩ (by decide)
    exact h.trans (by decide)

/-- C5: single-query resolution selects exactly one operation by the fixed
priority: any database keyword wins and carries no arguments; a payment
keyword with neither summary nor subscription keywords yields the
payment-rate operation with the extracted period; a subscription keyword
with neither summary nor payment keywords yields the subscription-count
operation with the extracted period; every other case yields the
combined-summary operation with the extracted period. -/
theorem single_query_priority (ql : List Char) :
    (has_database ql = true →
        parse_single_query ql = [⟨.get_database_status, none⟩])
  ∧ (has_database ql = false → has_payment ql = true → has_summary ql = false →
        has_subscription ql = false →
        parse_single_query ql
          = [⟨.get_payment_success_rate_in_last_days, some (extract_time_period ql)⟩])
  ∧ (has_database ql = false → has_subscription ql = true → has_summary ql = false →
        has_payment ql = false →
        parse_single_query ql
          = [⟨.get_subscriptions_in_last_days, some (extract_time_period ql)⟩])
  ∧ (has_database ql = false →
        (has_payment ql && !has_summary ql && !has_subscription ql) = false →
        (has_subscription ql && !has_summary ql && !has_payment ql) = false →
        parse_single_query ql
          = [⟨.get_subscription_summary, some (extract_time_period ql)⟩]) := by
  refine ⟨?_, ?_, ?_, ?_⟩
  · intro h1
    unfold parse_single_query
    rw [h1]
    rfl
  · intro h1 h2 h3 h4
    unfold parse_single_query
    rw [h1, h2, h3, h4]
    rfl
  · intro h1 h2 h3 h4
    unfold parse_single_query
    rw [h1, h2, h3, h4]
    rfl
  · intro h1 h2 h3
    unfold parse_single_query
    rw [h1, h2, h3]
    rfl

/-- C5 witness: `"monthly payment summary"` has payment and summary keywords
(summary wins over payment) and the `monthly` period rule, so the router
yields the one combined-summary call with `days = 30`. -/
theorem single_query_priority_witness :
    parse_natural_language_query ("monthly payment summary".toList)
      = [⟨.get_subscription_summary, some 30⟩] := by
  have h := (single_query_priority (("monthly payment summary".toList).map asciiLower)).2.2.2
    (by decide) (by decide) (by decide)
  have h2 : parse_natural_language_query ("monthly payment summary".toList)
      = parse_single_query (("monthly payment summary".toList).map asciiLower) := by decide
  rw [h2, h]
  decide

/-- C6: any input containing `compare` is routed through the comparison
branch: one combined-summary RoutedCall per period, the period list being
sorted strictly ascending (hence deduplicated), defaulting to `[7, 30]` when
no `N day(s)` / `N week(s)` (×7) / `N month(s)` (×30) occurrence is found
anywhere in the text, and otherwise containing exactly the extracted day
counts. -/
theorem compare_routing (q : List Char)
    (hc : containsSub ("compare".toList) (q.map asciiLower) = true) :
    parse_natural_language_query q
      = (compare_periods (q.map asciiLower)).map
          (fun d => ⟨.get_subscription_summary, some d⟩)
  ∧ List.Chain' (· < ·) (compare_periods (q.map asciiLower))
  ∧ (raw_compare_periods (q.map asciiLower) = [] →
      compare_periods (q.map asciiLower) = [7, 30])
  ∧ (raw_compare_periods (q.map asciiLower) ≠ [] →
      ∀ d, d ∈ compare_periods (q.map asciiLower)
        ↔ d ∈ raw_compare_periods (q.map asciiLower)) := by
  have hmulti : has_multi_indicator (q.map asciiLower) = true := by
    unfold has_multi_indicator
    rw [hc]
    simp
  have hmr : multi_results (q.map asciiLower)
      = (compare_periods (q.map asciiLower)).map
          (fun d => ⟨.get_subscription_summary, some d⟩) := by
    unfold multi_results
    rw [hc]
    simp
  refine ⟨?_, ?_, ?_, ?_⟩
  · rw [parse_nlq_eq_multi hmulti]
    unfold parse_multi_query
    rw [hmr]
    have hne : ((compare_periods (q.map asciiLower)).map
        (fun d => (⟨Tool.get_subscription_summary, some d⟩ : RoutedCall))).isEmpty
          = false := by
      rcases h' : compare_periods (q.map asciiLower) with _ | ⟨x, xs⟩
      · exact absurd h' (compare_periods_ne_nil _)
      · rfl
    rw [hne]
    simp
  · unfold compare_periods
    split
    · exact List.chain'_cons.mpr ⟨by norm_num, List.chain'_singleton 30⟩
    · exact chain'_lt_sortDedup _
  · intro h
    unfold compare_periods
    rw [h]
    simp
  · intro h d
    have hemp : (raw_compare_periods (q.map asciiLower)).isEmpty = false := by
      rcases h' : raw_compare_periods (q.map asciiLower) with _ | ⟨x, xs⟩
      · exact absurd h' h
      · rfl
    unfold compare_periods
    rw [hemp]
    simp only [Bool.false_eq_true, if_false]
    exact mem_sortDedup

/-- C6 witness: `"compare 7 days vs 30 days performance"` yields the two
summary calls for 7 and 30 days, ascending and deduplicated. -/
theorem compare_routing_witness :
    parse_natural_language_query ("compare 7 days vs 30 days performance".toList)
      = [⟨.get_subscription_summary, some 7⟩, ⟨.get_subscription_summary, some 30⟩] := by
  have h := (compare_routing ("compare 7 days vs 30 days performance".toList)
    (by decide)).1
  exact h.trans (by decide)

/-- C7 counterexample: `"payment and "` splits on `" and "` into the segments
`"payment"` and `""`. The claim says single-query resolution runs only on
non-empty segments, which would yield exactly the one payment-rate call; the
code parses the empty segment too, which contributes a default
combined-summary call with `days = 30`. -/
theorem segment_split_counterexample :
    parse_natural_language_query ("payment and ".toList)
      = [⟨.get_payment_success_rate_in_last_days, some 30⟩,
         ⟨.get_subscription_summary, some 30⟩]
  ∧ parse_natural_language_query ("payment and ".toList)
      ≠ [⟨.get_payment_success_rate_in_last_days, some 30⟩] := by
  constructor
  · decide
  · decide

/-- C7 (amended): for input without `compare` that contains one of the spaced
separators `" and "`, `" vs "`, `" versus "`, the router splits the whole
text on the single first-matching separator in that priority order, trims
each segment, and runs single-query resolution independently on **every**
segment — an empty segment included, which yields the default
combined-summary call with `days = 30` — concatenating results in segment
order, one RoutedCall per segment; since every segment yields a RoutedCall,
the whole-text fallback of the empty-results case is never taken. -/
theorem separator_split_routing (q : List Char)
    (hnc : containsSub ("compare".toList) (q.map asciiLower) = false)
    (hsep : (containsSub (" and ".toList) (q.map asciiLower)
        || (containsSub (" vs ".toList) (q.map asciiLower)
            || containsSub (" versus ".toList) (q.map asciiLower))) = true) :
    parse_natural_language_query q
      = extendAll ((split_parts (q.map asciiLower)).map
          (fun part => parse_single_query (stripChars part)))
  ∧ (parse_natural_language_query q).length
      = (split_parts (q.map asciiLower)).length := by
  have hmulti : has_multi_indicator (q.map asciiLower) = true := by
    unfold has_multi_indicator
    cases h1 : containsSub (" and ".toList) (q.map asciiLower) <;>
      cases h2 : containsSub (" vs ".toList) (q.map asciiLower) <;>
        cases h3 : containsSub (" versus ".toList) (q.map asciiLower) <;>
          simp_all
  have hmr : multi_results (q.map asciiLower)
      = extendAll ((split_parts (q.map asciiLower)).map
          (fun part => parse_single_query (stripChars part))) := by
    unfold multi_results
    rw [hnc]
    simp
  have hlen : (extendAll ((split_parts (q.map asciiLower)).map
      (fun part => parse_single_query (stripChars part)))).length
        = (split_parts (q.map asciiLower)).length :=
    extendAll_map_length _ _ (fun x _ => parse_single_query_length _)
  have hne : (multi_results (q.map asciiLower)).isEmpty = false := by
    rw [hmr]
    rcases h' : extendAll ((split_parts (q.map asciiLower)).map
        (fun part => parse_single_query (stripChars part))) with _ | ⟨x, xs⟩
    · rw [h'] at hlen
      rcases h'' : split_parts (q.map asciiLower) with _ | ⟨y, ys⟩
      · exact absurd h'' (split_parts_ne_nil _)
      · rw [h''] at hlen
        simp at hlen
    · rfl
  have hmain : parse_natural_language_query q
      = extendAll ((split_parts (q.map asciiLower)).map
          (fun part => parse_single_query (stripChars part))) := by
    rw [parse_nlq_eq_multi hmulti]
    unfold parse_multi_query
    rw [hne]
    simp only [Bool.false_eq_true, if_false]
    exact hmr
  exact ⟨hmain, by rw [hmain]; exact hlen⟩

/-- C7 amended witness: the two-segment conjunction routes into the
subscription-count call for 7 days followed by the payment-rate call for 15
days, in segment order. -/
theorem separator_split_routing_witness :
    parse_natural_language_query
        ("subscription performance for 7 days and payment rate for 15 days".toList)
      = [⟨.get_subscriptions_in_last_days, some 7⟩,
         ⟨.get_payment_success_rate_in_last_days, some 15⟩] := by
  have h := (separator_split_routing
    ("subscription performance for 7 days and payment rate for 15 days".toList)
    (by decide) (by decide)).1
  exact h.trans (by decide)

end SubscriptionAnalytics
